import Mathlib

/-!
# Undo/redo text editor: verification of the history and formatting core

Shallow embedding of `src/app/app.ts` (class `AppComponent`): a single text
buffer with a tracked selection, an undo stack, a redo stack, and the
operations `onTextChange`, `onSelectionChange`, `formatBold`, `formatItalic`,
`formatHeading` (all via `applyFormatting`), `undo`, `redo`, `clearHistory`.

Modelling conventions:
* The buffer is a `List Char` (JavaScript strings indexed by integer
  offsets); `String` literals are converted with `String.toList`.
* JavaScript array `push`/`pop` act on the END of the array; we model a
  stack as a `List` whose HEAD is the top of the stack (the array's end),
  so `push x` is `x :: l` and `this.stack[this.stack.length - 1]` is `l.head?`.
* The `debugInfo` string and `console.log` calls are diagnostics with no
  effect on buffer, selection or history; they are omitted from the state,
  as is the `editorElement` DOM reference (the `if (!this.editorElement)`
  guard aborts without mutating any modelled field).
* The textarea is the source of selection events; the DOM guarantees the
  offsets it reports satisfy `start ≤ end ≤ value.length`, and Angular's
  two-way binding keeps `value` equal to `editorContent`.  These bounds
  appear as hypotheses on the steps that read the textarea's selection.
* The `setTimeout` callbacks only refocus the textarea except in
  `applyFormatting`, where the deferred callback repositions the cursor to
  `selectionStart + formattedText.length`; it reads only already-committed
  values, so it is folded into `applyFormatting` synchronously.
-/

set_option autoImplicit false

namespace UndoRedo

/-- JavaScript `s.substring(a, b)`: both indices are clamped to
`[0, s.length]` and swapped if `a > b`. -/
def jsSubstring (s : List Char) (a b : Nat) : List Char :=
  let a' := min a s.length
  let b' := min b s.length
  (s.take (max a' b')).drop (min a' b')

/-- JavaScript `s.substring(a)` (one-argument form): from index `a`,
clamped to the length, through the end of the string. -/
def jsSubstringFrom (s : List Char) (a : Nat) : List Char :=
  s.drop a

/-- JavaScript `s[i]`: the character at index `i`, or `undefined` (here
`none`) when out of bounds. -/
def jsCharAt (s : List Char) (i : Nat) : Option Char :=
  s.get? i

/-- The modelled fields of `AppComponent`: the buffer (`editorContent`),
the two history stacks, and the tracked selection offsets. -/
structure EditorState where
  editorContent : List Char
  undoStack : List (List Char)
  redoStack : List (List Char)
  selectionStart : Nat
  selectionEnd : Nat
deriving Repr, DecidableEq

/-- Model of `saveState` (app.ts:41-47): pushes the CURRENT `editorContent` onto the
undo stack and clears the redo stack.  (The `action` argument only feeds
`debugInfo`, which is not modelled.) -/
def saveState (st : EditorState) : EditorState :=
  { st with
    undoStack := st.editorContent :: st.undoStack
    redoStack := [] }

/-- Model of `onTextChange` (app.ts:50-55): when the new text differs from the
current buffer, the buffer is updated FIRST and `saveState` is called
AFTER the update; equal text is a no-op. -/
def onTextChange (st : EditorState) (newText : List Char) : EditorState :=
  if st.editorContent ≠ newText then
    saveState { st with editorContent := newText }
  else
    st

/-- Model of `onSelectionChange` (app.ts:58-63): copies the textarea's selection
offsets into the tracked fields. -/
def onSelectionChange (st : EditorState) (s e : Nat) : EditorState :=
  { st with selectionStart := s, selectionEnd := e }

/-- Model of `applyFormatting` (app.ts:86-128).  `taSelStart`/`taSelEnd` are the
selection offsets read from the textarea (lines 96-97 copy them into the
tracked fields before use).  `pre`/`suf`/`dflt` are the `prefix`,
`suffix` and `defaultText` parameters.  The deferred cursor repositioning
(lines 115-127) is folded in synchronously: `newPosition` reads the
tracked `selectionStart`, which still holds the textarea value copied at
line 96. -/
def applyFormatting (st : EditorState) (taSelStart taSelEnd : Nat)
    (pre suf dflt : List Char) : EditorState :=
  let st1 := { st with selectionStart := taSelStart, selectionEnd := taSelEnd }
  let selectedText := jsSubstring st1.editorContent st1.selectionStart st1.selectionEnd
  -- JS `selectedText || defaultText`: the empty string is falsy
  let textToInsert := if selectedText.isEmpty then dflt else selectedText
  let formattedText := pre ++ textToInsert ++ suf
  let beforeText := jsSubstring st1.editorContent 0 st1.selectionStart
  let afterText := jsSubstringFrom st1.editorContent st1.selectionEnd
  let st2 := saveState { st1 with editorContent := beforeText ++ formattedText ++ afterText }
  let newPosition := st2.selectionStart + formattedText.length
  { st2 with selectionStart := newPosition, selectionEnd := newPosition }

/-- Model of `formatBold` (app.ts:66-68). -/
def formatBold (st : EditorState) (taSelStart taSelEnd : Nat) : EditorState :=
  applyFormatting st taSelStart taSelEnd ("**".toList) ("**".toList) ("Bold text".toList)

/-- Model of `formatItalic` (app.ts:71-73). -/
def formatItalic (st : EditorState) (taSelStart taSelEnd : Nat) : EditorState :=
  applyFormatting st taSelStart taSelEnd ("_".toList) ("_".toList) ("Italic text".toList)

/-- Model of `formatHeading` (app.ts:76-83): starts from `'\n# '` and switches to
`'# '` only when `selectionStart > 0` AND the preceding character is a
newline.  Note it consults the TRACKED `selectionStart` for this choice,
before `applyFormatting` re-reads the textarea's selection. -/
def formatHeading (st : EditorState) (taSelStart taSelEnd : Nat) : EditorState :=
  let pre :=
    if 0 < st.selectionStart ∧ jsCharAt st.editorContent (st.selectionStart - 1) = some '\n' then
      "# ".toList
    else
      "\n# ".toList
  applyFormatting st taSelStart taSelEnd pre [] ("Heading".toList)

/-- Model of `undo` (app.ts:131-150): no-op when the undo stack has at most one
entry (the initial state is never popped); otherwise pushes the current
buffer onto the redo stack, pops the undo stack, and restores the new top
of the undo stack as the buffer. -/
def undo (st : EditorState) : EditorState :=
  match st.undoStack with
  | [] => st
  | [_] => st
  | _ :: prev :: rest =>
    { st with
      redoStack := st.editorContent :: st.redoStack
      undoStack := prev :: rest
      editorContent := prev }

/-- Model of `redo` (app.ts:153-172): no-op on an empty redo stack; otherwise pops
the redo stack, pushes the popped value onto the undo stack, and makes it
the buffer. -/
def redo (st : EditorState) : EditorState :=
  match st.redoStack with
  | [] => st
  | redoState :: rest =>
    { st with
      redoStack := rest
      undoStack := redoState :: st.undoStack
      editorContent := redoState }

/-- Model of `clearHistory` (app.ts:175-183): resets the undo stack to only the
current buffer and empties the redo stack. -/
def clearHistory (st : EditorState) : EditorState :=
  { st with undoStack := [st.editorContent], redoStack := [] }

/-- The fixed welcome string assigned to `editorContent` (app.ts:14). -/
def welcomeText : List Char :=
  ("Welcome to the text editor with undo/redo functionality!\n\nTry selecting some text and clicking the formatting buttons above.").toList

/-- The editor after construction and `ngAfterViewInit` (app.ts:30-38):
fields take their initializers, then `saveState` pushes the initial
buffer as the sole undo entry. -/
def initState : EditorState :=
  saveState
    { editorContent := welcomeText
      undoStack := []
      redoStack := []
      selectionStart := 0
      selectionEnd := 0 }

/-- One user-triggered operation.  Steps that read the textarea's
selection (`onSelectionChange` and the formatting buttons) carry the DOM
textarea's guarantee that the reported offsets satisfy
`start ≤ end ≤ length` of its value, which the binding keeps equal to
`editorContent`. -/
inductive Step : EditorState → EditorState → Prop
  | textChange (st : EditorState) (newText : List Char) :
      Step st (onTextChange st newText)
  | selChange (st : EditorState) (s e : Nat) (hse : s ≤ e)
      (hel : e ≤ st.editorContent.length) :
      Step st (onSelectionChange st s e)
  | bold (st : EditorState) (s e : Nat) (hse : s ≤ e)
      (hel : e ≤ st.editorContent.length) :
      Step st (formatBold st s e)
  | italic (st : EditorState) (s e : Nat) (hse : s ≤ e)
      (hel : e ≤ st.editorContent.length) :
      Step st (formatItalic st s e)
  | heading (st : EditorState) (s e : Nat) (hse : s ≤ e)
      (hel : e ≤ st.editorContent.length) :
      Step st (formatHeading st s e)
  | undoStep (st : EditorState) : Step st (undo st)
  | redoStep (st : EditorState) : Step st (redo st)
  | clearStep (st : EditorState) : Step st (clearHistory st)

/-- States reachable from the initialized editor by user operations. -/
inductive Reachable : EditorState → Prop
  | init : Reachable initState
  | step {st st' : EditorState} : Reachable st → Step st st' → Reachable st'

/-- A standalone editor state over buffer `b` with tracked selection
`(s, e)` and only `b` in the undo history: the shape produced by
`clearHistory` after a selection change. -/
def mkState (b : List Char) (s e : Nat) : EditorState :=
  { editorContent := b
    undoStack := [b]
    redoStack := []
    selectionStart := s
    selectionEnd := e }

-- sanity checks on concrete values (spec §8 examples)
example : (formatBold (mkState ("abc".toList) 3 3) 3 3).editorContent
    = "abc**Bold text**".toList := by decide

example : (formatBold (mkState ("abc".toList) 3 3) 3 3).selectionStart = 16 := by decide

example : (formatItalic (mkState ("abcdef".toList) 0 3) 0 3).editorContent
    = "_abc_def".toList := by decide

example : (formatHeading (mkState ("Hello".toList) 0 5) 0 5).editorContent
    = "\n# Hello".toList := by decide

example : (formatHeading (mkState ("Hello".toList) 5 5) 5 5).editorContent
    = "Hello\n# Heading".toList := by decide


/-! ## Basic unfolding lemmas -/

/-- Unfolding of `applyFormatting` into an explicit record. -/
theorem applyFormatting_def (st : EditorState) (taS taE : Nat)
    (pre suf dflt : List Char) :
    applyFormatting st taS taE pre suf dflt =
      { editorContent := jsSubstring st.editorContent 0 taS
          ++ (pre ++ (if (jsSubstring st.editorContent taS taE).isEmpty then dflt
                else jsSubstring st.editorContent taS taE) ++ suf)
          ++ jsSubstringFrom st.editorContent taE
        undoStack := (jsSubstring st.editorContent 0 taS
          ++ (pre ++ (if (jsSubstring st.editorContent taS taE).isEmpty then dflt
                else jsSubstring st.editorContent taS taE) ++ suf)
          ++ jsSubstringFrom st.editorContent taE) :: st.undoStack
        redoStack := []
        selectionStart := taS + (pre ++ (if (jsSubstring st.editorContent taS taE).isEmpty then dflt
                else jsSubstring st.editorContent taS taE) ++ suf).length
        selectionEnd := taS + (pre ++ (if (jsSubstring st.editorContent taS taE).isEmpty then dflt
                else jsSubstring st.editorContent taS taE) ++ suf).length } := rfl

/-- For text that differs from the buffer, `onTextChange` commits the new
text and then pushes it (the post-update buffer) onto the undo stack. -/
theorem onTextChange_of_ne (st : EditorState) (newText : List Char)
    (h : st.editorContent ≠ newText) :
    onTextChange st newText =
      { st with editorContent := newText
                undoStack := newText :: st.undoStack
                redoStack := [] } := by
  simp only [onTextChange, if_pos h, saveState]

/-- Text equal to the buffer leaves the whole state untouched. -/
theorem onTextChange_self (st : EditorState) :
    onTextChange st st.editorContent = st := by
  simp [onTextChange]

/-! ## The head-of-undo-stack invariant

Because `saveState` runs after the buffer is updated, the top of the undo
stack always equals the current buffer in every reachable state. -/

/-- In every reachable state the top of the undo stack is the current
buffer. -/
theorem reachable_head {st : EditorState} (h : Reachable st) :
    st.undoStack.head? = some st.editorContent := by
  induction h with
  | init => rfl
  | @step st st' _ hstep ih =>
    cases hstep with
    | textChange t =>
      rcases eq_or_ne st.editorContent t with heq | hne
      · simpa [onTextChange, heq] using ih
      · simp [onTextChange_of_ne st t hne]
    | selChange s e hse hel => simpa [onSelectionChange] using ih
    | bold s e hse hel => simp [formatBold, applyFormatting_def]
    | italic s e hse hel => simp [formatItalic, applyFormatting_def]
    | heading s e hse hel => simp [formatHeading, applyFormatting_def]
    | undoStep =>
      rcases hst : st.undoStack with _ | ⟨a, _ | ⟨b, rest⟩⟩
      · simp [undo, hst] at ih ⊢
      · simpa [undo, hst] using ih
      · simp [undo, hst]
    | redoStep =>
      rcases hst : st.redoStack with _ | ⟨r, rest⟩
      · simpa [redo, hst] using ih
      · simp [redo, hst]
    | clearStep => simp [clearHistory]

/-- The undo stack is never empty in a reachable state. -/
theorem reachable_undoStack_ne_nil {st : EditorState} (h : Reachable st) :
    st.undoStack ≠ [] := by
  intro hnil
  have := reachable_head h
  rw [hnil] at this
  exact Option.noConfusion this

/-! ## Arithmetic facts about the JavaScript substring model -/

/-- With ordered, in-bounds indices, `jsSubstring s a b` is the slice of
`s` from `a` (inclusive) to `b` (exclusive). -/
theorem jsSubstring_of_le {s : List Char} {a b : Nat} (hab : a ≤ b)
    (hb : b ≤ s.length) :
    jsSubstring s a b = (s.drop a).take (b - a) := by
  have ha : a ≤ s.length := le_trans hab hb
  simp only [jsSubstring, Nat.min_eq_left ha, Nat.min_eq_left hb,
    Nat.max_eq_right hab, Nat.min_eq_left hab]
  exact List.drop_take b a s

/-- Substring from index `0` is a prefix take (for any second index). -/
theorem jsSubstring_zero (s : List Char) (b : Nat) :
    jsSubstring s 0 b = s.take b := by
  simp only [jsSubstring, Nat.zero_min, Nat.max_eq_right (Nat.zero_le _),
    Nat.min_eq_left (Nat.zero_le _), List.drop_zero]
  exact List.take_eq_take.2 (by omega)

/-! ## Claim theorems -/

/-- C1, counterexample: contrary to the claim, applying Heading at
`selection.start == 0` over buffer `"Hello"` with `"Hello"` selected
yields `"\n# Hello"`, not `"# Hello"`: the `selectionStart > 0` guard in
`formatHeading` means position `0` never receives the bare `"# "` prefix.
The state is built by reachable operations from the initialized editor. -/
theorem heading_at_offset_zero_counterexample :
    (formatHeading (onSelectionChange (onTextChange initState ("Hello".toList)) 0 5)
        0 5).editorContent = "\n# Hello".toList ∧
    (formatHeading (onSelectionChange (onTextChange initState ("Hello".toList)) 0 5)
        0 5).editorContent ≠ "# Hello".toList := by
  exact ⟨by decide, by decide⟩

/-- C1, amended: `formatHeading` chooses prefix `"# "` exactly when
`selectionStart > 0` AND the character immediately preceding
`selectionStart` is a newline, and `"\n# "` otherwise — in particular also
at `selectionStart == 0`.  Hence Heading at `selection.start == 0` over
buffer `"Hello"` (with `"Hello"` selected) yields `"\n# Hello"`, and
Heading at `selection.start == 5` with empty selection after `"Hello"`
(no preceding newline) yields `"Hello\n# Heading"`. -/
theorem formatHeading_prefix_rule (st : EditorState) (s e : Nat) :
    formatHeading st s e =
      applyFormatting st s e
        (if 0 < st.selectionStart ∧ st.editorContent.get? (st.selectionStart - 1) = some '\n'
          then "# ".toList else "\n# ".toList)
        [] ("Heading".toList) ∧
    (formatHeading (onSelectionChange (onTextChange initState ("Hello".toList)) 0 5)
        0 5).editorContent = "\n# Hello".toList ∧
    (formatHeading (onSelectionChange (onTextChange initState ("Hello".toList)) 5 5)
        5 5).editorContent = "Hello\n# Heading".toList := by
  exact ⟨rfl, by decide, by decide⟩

/-- C2, counterexample: after an edit, the top of the undo stack is the
NEW text, not the pre-action buffer: `onTextChange` commits
`editorContent = newText` first and `saveState` pushes the already-updated
buffer. -/
theorem snapshot_pre_action_counterexample :
    (onTextChange initState ("x".toList)).undoStack.head? = some ("x".toList) ∧
    (onTextChange initState ("x".toList)).undoStack.head? ≠ some initState.editorContent := by
  exact ⟨by decide, by decide⟩

/-- C2, amended: every edit (`onTextChange` with differing text) and every
formatting action pushes the POST-action buffer: afterwards the top of the
undo stack equals the new buffer, and the previous stack — whose top is
the pre-action buffer `B` in reachable states — sits beneath it. -/
theorem snapshot_is_post_action_buffer (st : EditorState) (newText : List Char)
    (h : st.editorContent ≠ newText) (s e : Nat) (pre suf dflt : List Char) :
    (onTextChange st newText).undoStack = newText :: st.undoStack ∧
    (onTextChange st newText).editorContent = newText ∧
    (applyFormatting st s e pre suf dflt).undoStack
      = (applyFormatting st s e pre suf dflt).editorContent :: st.undoStack := by
  rw [onTextChange_of_ne st newText h]
  exact ⟨rfl, rfl, rfl⟩

/-- C2 witness: instantiation at the initialized editor and the edit
`"x"`. -/
theorem snapshot_is_post_action_buffer_witness :
    (onTextChange initState ("x".toList)).undoStack = ("x".toList) :: initState.undoStack ∧
    (onTextChange initState ("x".toList)).editorContent = "x".toList ∧
    (applyFormatting initState 0 0 ("**".toList) ("**".toList) ("Bold text".toList)).undoStack
      = (applyFormatting initState 0 0 ("**".toList) ("**".toList) ("Bold text".toList)).editorContent
          :: initState.undoStack :=
  snapshot_is_post_action_buffer initState ("x".toList) (by decide) 0 0
    ("**".toList) ("**".toList) ("Bold text".toList)

/-- C8: `onTextChange` with text identical to the current buffer is a
complete no-op: the whole state — in particular the buffer and the undo
stack — is unchanged. -/
theorem onTextChange_identical_noop (st : EditorState) :
    onTextChange st st.editorContent = st := by
  simp [onTextChange]

/-- C10: `undo`, `redo` and `clearHistory` never touch the tracked
selection offsets, and `clearHistory` also leaves the buffer unchanged;
since the modelled state has no other fields beyond the two history
stacks, only the stacks (and, for `undo`/`redo`, the buffer) change. -/
theorem history_ops_frame (st : EditorState) :
    (undo st).selectionStart = st.selectionStart ∧
    (undo st).selectionEnd = st.selectionEnd ∧
    (redo st).selectionStart = st.selectionStart ∧
    (redo st).selectionEnd = st.selectionEnd ∧
    (clearHistory st).selectionStart = st.selectionStart ∧
    (clearHistory st).selectionEnd = st.selectionEnd ∧
    (clearHistory st).editorContent = st.editorContent := by
  refine ⟨?_, ?_, ?_, ?_, rfl, rfl, rfl⟩
  · rcases hst : st.undoStack with _ | ⟨a, _ | ⟨b, rest⟩⟩ <;> simp [undo, hst]
  · rcases hst : st.undoStack with _ | ⟨a, _ | ⟨b, rest⟩⟩ <;> simp [undo, hst]
  · rcases hst : st.redoStack with _ | ⟨r, rest⟩ <;> simp [redo, hst]
  · rcases hst : st.redoStack with _ | ⟨r, rest⟩ <;> simp [redo, hst]

/-- C5: in every reachable state the undo stack has at least one entry,
and calling `undo` when it has exactly one entry is a complete no-op
(buffer, undo stack and redo stack all unchanged). -/
theorem undoStack_floor (st : EditorState) (h : Reachable st) :
    1 ≤ st.undoStack.length ∧ (st.undoStack.length = 1 → undo st = st) := by
  constructor
  · rcases hst : st.undoStack with _ | ⟨a, rest⟩
    · exact absurd hst (reachable_undoStack_ne_nil h)
    · simp [hst]
  · intro h1
    rcases hst : st.undoStack with _ | ⟨a, _ | ⟨b, rest⟩⟩
    · simp [undo, hst]
    · simp [undo, hst]
    · rw [hst] at h1
      simp at h1

/-- C5 witness: instantiation at the initialized editor. -/
theorem undoStack_floor_witness :
    1 ≤ initState.undoStack.length ∧
    (initState.undoStack.length = 1 → undo initState = initState) :=
  undoStack_floor initState Reachable.init

/-- C6: every edit with differing text and every formatting action
(bold, italic, heading) leaves the redo stack empty afterwards, for
every prior state — including states whose redo stack was non-empty. -/
theorem new_action_clears_redoStack (st : EditorState) (newText : List Char)
    (h : st.editorContent ≠ newText) (s e : Nat) :
    (onTextChange st newText).redoStack = [] ∧
    (formatBold st s e).redoStack = [] ∧
    (formatItalic st s e).redoStack = [] ∧
    (formatHeading st s e).redoStack = [] := by
  refine ⟨?_, rfl, rfl, rfl⟩
  rw [onTextChange_of_ne st newText h]

/-- A state whose redo stack is non-empty, for exercising C6. -/
def redoNonempty : EditorState :=
  { editorContent := "b".toList
    undoStack := ["b".toList]
    redoStack := ["c".toList]
    selectionStart := 0
    selectionEnd := 0 }

/-- C6 witness: instantiation at a state with a non-empty redo stack. -/
theorem new_action_clears_redoStack_witness :
    redoNonempty.editorContent ≠ ("a".toList) ∧
    ((onTextChange redoNonempty ("a".toList)).redoStack = [] ∧
     (formatBold redoNonempty 0 1).redoStack = [] ∧
     (formatItalic redoNonempty 0 1).redoStack = [] ∧
     (formatHeading redoNonempty 0 1).redoStack = []) :=
  ⟨by decide, new_action_clears_redoStack redoNonempty ("a".toList) (by decide) 0 1⟩

/-- C9: in every reachable state the undo stack is non-empty and its top
entry equals the current buffer (a consequence of `saveState` always
running after the buffer update, and of how `undo`, `redo` and
`clearHistory` maintain the stacks). -/
theorem undoStack_top_eq_buffer (st : EditorState) (h : Reachable st) :
    st.undoStack ≠ [] ∧ st.undoStack.head? = some st.editorContent :=
  ⟨reachable_undoStack_ne_nil h, reachable_head h⟩

/-- C9 witness: instantiation at the initialized editor. -/
theorem undoStack_top_eq_buffer_witness :
    initState.undoStack ≠ [] ∧
    initState.undoStack.head? = some initState.editorContent :=
  undoStack_top_eq_buffer initState Reachable.init

/-- A reachable state whose tracked selection lies beyond the end of the
buffer: bold formatting on `"abc"` places the cursor at offset 16, and
`undo` restores the 3-character buffer without touching the selection. -/
def outOfBoundsState : EditorState :=
  undo (formatBold (onTextChange initState ("abc".toList)) 3 3)

/-- C3, counterexample: the bound
`selectionEnd ≤ length editorContent` is violated in a reachable state —
after an edit to `"abc"`, bold at collapsed offset 3 (cursor moves to 16)
and `undo` (buffer back to `"abc"`, selection untouched). -/
theorem selection_bounds_counterexample :
    Reachable outOfBoundsState ∧
    ¬ (outOfBoundsState.selectionEnd ≤ outOfBoundsState.editorContent.length) := by
  constructor
  · exact Reachable.step
      (Reachable.step
        (Reachable.step Reachable.init (Step.textChange initState ("abc".toList)))
        (Step.bold (onTextChange initState ("abc".toList)) 3 3 (Nat.le_refl 3) (by decide)))
      (Step.undoStep (formatBold (onTextChange initState ("abc".toList)) 3 3))
  · decide

/-- C3, amended: in every reachable state the tracked offsets satisfy
`0 ≤ selectionStart ≤ selectionEnd` (the upper bound against the buffer
length does NOT hold in general, because `undo` and `redo` restore a
possibly shorter buffer without adjusting the tracked selection). -/
theorem selectionStart_le_selectionEnd (st : EditorState) (h : Reachable st) :
    st.selectionStart ≤ st.selectionEnd := by
  induction h with
  | init => exact Nat.le_refl 0
  | @step st st' _ hstep ih =>
    cases hstep with
    | textChange t =>
      rcases eq_or_ne st.editorContent t with heq | hne
      · simpa [onTextChange, heq] using ih
      · simpa [onTextChange_of_ne st t hne] using ih
    | selChange s e hse hel => simpa [onSelectionChange] using hse
    | bold s e hse hel => simp [formatBold, applyFormatting_def]
    | italic s e hse hel => simp [formatItalic, applyFormatting_def]
    | heading s e hse hel => simp [formatHeading, applyFormatting_def]
    | undoStep =>
      rcases hst : st.undoStack with _ | ⟨a, _ | ⟨b, rest⟩⟩ <;> simpa [undo, hst] using ih
    | redoStep =>
      rcases hst : st.redoStack with _ | ⟨r, rest⟩ <;> simpa [redo, hst] using ih
    | clearStep => simpa [clearHistory] using ih

/-- C3 witness: instantiation at the initialized editor. -/
theorem selectionStart_le_selectionEnd_witness :
    initState.selectionStart ≤ initState.selectionEnd :=
  selectionStart_le_selectionEnd initState Reachable.init

/-- C4: round-trip law.  From any reachable state with buffer `C1`, an
edit to `C2 ≠ C1` followed by `undo` restores buffer `C1`, and `redo`
immediately after that `undo` restores buffer `C2`. -/
theorem edit_undo_redo_roundtrip (st : EditorState) (h : Reachable st)
    (c2 : List Char) (hne : st.editorContent ≠ c2) :
    (undo (onTextChange st c2)).editorContent = st.editorContent ∧
    (redo (undo (onTextChange st c2))).editorContent = c2 := by
  have hhead := reachable_head h
  rcases hst : st.undoStack with _ | ⟨top, rest⟩
  · exact absurd hst (reachable_undoStack_ne_nil h)
  · rw [hst] at hhead
    simp only [List.head?_cons, Option.some.injEq] at hhead
    subst hhead
    rw [onTextChange_of_ne st c2 hne]
    constructor
    · simp [undo, hst]
    · simp [undo, redo, hst]

/-- C4 witness: instantiation at the initialized editor and the edit
`"x"`. -/
theorem edit_undo_redo_roundtrip_witness :
    initState.editorContent ≠ ("x".toList) ∧
    ((undo (onTextChange initState ("x".toList))).editorContent = initState.editorContent ∧
     (redo (undo (onTextChange initState ("x".toList)))).editorContent = "x".toList) :=
  ⟨by decide, edit_undo_redo_roundtrip initState Reachable.init ("x".toList) (by decide)⟩

/-- The JavaScript `selectedText || defaultText` choice coincides with
the specification-side conditional `if start < end then slice else
defaultText` once the selection is ordered and within bounds. -/
theorem jsSubstring_ite_eq {B : List Char} {s e : Nat} (hse : s ≤ e)
    (hel : e ≤ B.length) (dflt : List Char) :
    (if (jsSubstring B s e).isEmpty then dflt else jsSubstring B s e)
      = (if s < e then (B.drop s).take (e - s) else dflt) := by
  rw [jsSubstring_of_le hse hel]
  rcases Nat.lt_or_ge s e with hlt | hge
  · have hlen : ((B.drop s).take (e - s)).length = e - s := by
      simp only [List.length_take, List.length_drop]
      omega
    cases hb : ((B.drop s).take (e - s)).isEmpty
    · rw [if_pos hlt]
      rfl
    · exfalso
      have := List.isEmpty_iff.mp hb
      rw [this] at hlen
      simp at hlen
      omega
  · have h0 : e - s = 0 := by omega
    rw [h0, List.take_zero, if_neg (Nat.not_lt.2 hge)]
    rfl

/-- C7: `applyFormatting` with an ordered, in-bounds selection `(s, e)`
splices `buffer[0:s] ++ formatted ++ buffer[e:]` where `formatted` is the
prefix, then the selected slice (or `defaultText` when the selection is
collapsed), then the suffix; the tracked selection becomes a collapsed
cursor at `s + length formatted`.  In particular Bold with the empty
selection at offset 3 on `"abc"` yields `"abc**Bold text**"` with cursor
16, and Italic with selection `[0,3]` on `"abcdef"` yields `"_abc_def"`
with cursor 5. -/
theorem applyFormatting_splice_spec (st : EditorState) (s e : Nat)
    (pre suf dflt : List Char) (hse : s ≤ e)
    (hel : e ≤ st.editorContent.length) :
    ((applyFormatting st s e pre suf dflt).editorContent =
        st.editorContent.take s
          ++ (pre ++ (if s < e then (st.editorContent.drop s).take (e - s) else dflt) ++ suf)
          ++ st.editorContent.drop e ∧
      (applyFormatting st s e pre suf dflt).selectionStart =
        s + (pre ++ (if s < e then (st.editorContent.drop s).take (e - s) else dflt) ++ suf).length ∧
      (applyFormatting st s e pre suf dflt).selectionEnd =
        (applyFormatting st s e pre suf dflt).selectionStart) ∧
    ((formatBold (mkState ("abc".toList) 3 3) 3 3).editorContent = "abc**Bold text**".toList ∧
      (formatBold (mkState ("abc".toList) 3 3) 3 3).selectionStart = 16 ∧
      (formatBold (mkState ("abc".toList) 3 3) 3 3).selectionEnd = 16) ∧
    ((formatItalic (mkState ("abcdef".toList) 0 3) 0 3).editorContent = "_abc_def".toList ∧
      (formatItalic (mkState ("abcdef".toList) 0 3) 0 3).selectionStart = 5 ∧
      (formatItalic (mkState ("abcdef".toList) 0 3) 0 3).selectionEnd = 5) := by
  refine ⟨⟨?_, ?_, rfl⟩, by decide, by decide⟩
  · rw [applyFormatting_def]
    dsimp only
    rw [jsSubstring_ite_eq hse hel dflt, jsSubstring_zero]
    rfl
  · rw [applyFormatting_def]
    dsimp only
    rw [jsSubstring_ite_eq hse hel dflt]

/-- C7 witness: instantiation of the splice law at buffer `"abcdef"`,
selection `(1, 3)`, prefix `"["`, suffix `"]"`, default `"D"`. -/
theorem applyFormatting_splice_spec_witness :
    ((1 : Nat) ≤ 3 ∧ 3 ≤ (mkState ("abcdef".toList) 0 0).editorContent.length) ∧
    (applyFormatting (mkState ("abcdef".toList) 0 0) 1 3
        ("[".toList) ("]".toList) ("D".toList)).editorContent = "a[bc]def".toList := by
  refine ⟨⟨by decide, by decide⟩, ?_⟩
  have h := applyFormatting_splice_spec (mkState ("abcdef".toList) 0 0) 1 3
    ("[".toList) ("]".toList) ("D".toList) (by decide) (by decide)
  rw [h.1.1]
  decide

end UndoRedo
